import Mathlib

/-!
# Interface descriptor builder (`tools/exp/codegen/interface.go`)

A shallow embedding of `NewInterface` and `Interface.Definition`, together with
the part of the code-builder representation (`jen.Code`) that these two
functions assemble, and the properties of the produced representation.
-/

namespace codegen

/-! ## The backend code representation -/

/-- Modelled from the spec: the kinds of lexical item of the backend code
representation. The representation type (`jen.Code` of the imported builder
library) is used by `interface.go` but declared outside src/. -/
inductive TokenType where
  | packageToken
  | identifierToken
  | keywordToken
  | operatorToken
  | layoutToken
  deriving DecidableEq, Repr

/-- Modelled from the spec: the "generic syntax-tree node" that rendering
produces (`jen.Code`, declared outside src/). An item is a token, a comment, a
delimited group of items (opening text, closing text, separator) or a
statement, which is a sequence of items. -/
inductive Code where
  | token (typ : TokenType) (content : String) : Code
  | comment (text : String) : Code
  | group (name opener closer separator : String) (multi : Bool) (items : List Code) : Code
  | statement (items : List Code) : Code
  deriving Repr

/-- Modelled from the spec: a statement of the backend representation
(`jen.Statement`, declared outside src/), the sequence of items that the
builder calls extend one item at a time. -/
abbrev Statement := List Code

namespace Code

/-- Modelled from the spec: the item added by the builder call `Empty()`
(declared outside src/): a token with no content, which produces no text. -/
def emptyItem : Code := Code.token TokenType.operatorToken ""

/-- Modelled from the spec: the item added by the builder call `Line()`
(declared outside src/): a line break. -/
def lineBreak : Code := Code.token TokenType.layoutToken "\n"

/-- Modelled from the spec: the item added by the builder call `Type()`
(declared outside src/): the declaration keyword. -/
def typeKeyword : Code := Code.token TokenType.keywordToken "type"

/-- Modelled from the spec: the item added by the builder call `Id(name)`
(declared outside src/): an identifier. -/
def ident (name : String) : Code := Code.token TokenType.identifierToken name

/-- Modelled from the spec: the item added by the builder call
`Params(items...)` (declared outside src/): a parenthesised, comma-separated
group holding the items in their order. -/
def paramList (items : List Code) : Code := Code.group "params" "(" ")" "," false items

/-- Modelled from the spec: the item added by the builder call
`Interface(methods...)` (declared outside src/): the interface body, holding
one member per item, in their order. -/
def interfaceGroup (methods : List Code) : Code :=
  Code.group "interface" "interface\x7b" "\x7d" "\n" true methods

end Code

namespace jen

/-- Modelled from the spec: builder call `jen.Empty()` (declared outside src/):
a fresh statement holding the empty item. -/
def Empty : Statement := [Code.emptyItem]

/-- Modelled from the spec: builder call `jen.Comment(str)` (declared outside
src/): a fresh statement holding the comment item. -/
def Comment (str : String) : Statement := [Code.comment str]

/-- Modelled from the spec: builder call `jen.Qual(path, name)` (declared
outside src/): the (namespace, name) pair of the qualified reference. -/
def Qual (path name : String) : Statement :=
  [Code.group "qual" "" "" "." false
    [Code.token TokenType.packageToken path, Code.token TokenType.identifierToken name]]

end jen

namespace Statement

/-- Modelled from the spec: builder method `Comment(str)` (declared outside
src/): appends a comment item to the statement. -/
def Comment (s : Statement) (str : String) : Statement := s ++ [Code.comment str]

/-- Modelled from the spec: builder method `Line()` (declared outside src/):
appends a line break to the statement. -/
def Line (s : Statement) : Statement := s ++ [Code.lineBreak]

/-- Modelled from the spec: builder method `Type()` (declared outside src/):
appends the declaration keyword to the statement. -/
def TypeKw (s : Statement) : Statement := s ++ [Code.typeKeyword]

/-- Modelled from the spec: builder method `Id(name)` (declared outside src/):
appends an identifier to the statement. -/
def Id (s : Statement) (name : String) : Statement := s ++ [Code.ident name]

/-- Modelled from the spec: builder method `Params(items...)` (declared outside
src/): appends a parenthesised group to the statement. -/
def Params (s : Statement) (params : List Code) : Statement := s ++ [Code.paramList params]

/-- Modelled from the spec: builder method `Interface(methods...)` (declared
outside src/): appends the interface body to the statement. -/
def Interface (s : Statement) (methods : List Code) : Statement :=
  s ++ [Code.interfaceGroup methods]

end Statement

/-! ## The source: `interface.go` -/

/-- `type FunctionSignature struct`. A nil slice and a zero-length slice are
both the empty list. -/
structure FunctionSignature where
  Name : String
  Params : List Code
  Ret : List Code
  Comment : String

/-- `type Interface struct`. -/
structure Interface where
  qual : Statement
  name : String
  functions : List FunctionSignature
  comment : String

/-- `func NewInterface(pkg, name string, funcs []FunctionSignature, comment string) *Interface`. -/
def NewInterface (pkg name : String) (funcs : List FunctionSignature) (comment : String) :
    Interface :=
  { qual := jen.Qual pkg name
    name := name
    functions := funcs
    comment := comment }

/-- Body of the `for _, fn := range i.functions` loop of `Definition`: the
statement `def` built for one method. `len` of a Go string counts bytes. -/
def Definition.member (fn : FunctionSignature) : Statement :=
  let d := jen.Empty
  let d := if fn.Comment.utf8ByteSize > 0 then Statement.Line (Statement.Comment d fn.Comment) else d
  let d := Statement.Params (Statement.Id d fn.Name) fn.Params
  let d := if fn.Ret.length > 0 then Statement.Params d fn.Ret else d
  d

/-- `func (i Interface) Definition() jen.Code`. -/
def Definition (i : Interface) : Code :=
  let stmts := jen.Empty
  let stmts := if i.comment.utf8ByteSize > 0 then Statement.Line (jen.Comment i.comment) else stmts
  let defs := i.functions.foldl
    (fun defs fn => defs ++ [Code.statement (Definition.member fn)]) []
  Code.statement (Statement.Interface (Statement.Id (Statement.TypeKw stmts) i.name) defs)

/-! ## Observations on the produced representation -/

/-- The items directly held by a statement or a group. -/
def Code.items : Code → List Code
  | Code.statement items => items
  | Code.group _ _ _ _ _ items => items
  | _ => []

/-- Whether an item is the `type` keyword. -/
def Code.isTypeKeyword : Code → Bool
  | Code.token TokenType.keywordToken content => content == "type"
  | _ => false

/-- Whether an item is an identifier. -/
def Code.isIdentifier : Code → Bool
  | Code.token TokenType.identifierToken _ => true
  | _ => false

/-- Whether an item is an interface body. -/
def Code.isInterface : Code → Bool
  | Code.group name _ _ _ _ _ => name == "interface"
  | _ => false

/-- The members of the interface body of a declaration: the items of the
interface group among the items of the declaration statement. -/
def interfaceBody (c : Code) : List Code :=
  match c.items.find? Code.isInterface with
  | some g => g.items
  | none => []

/-- The items of a declaration statement that come before the `type` keyword. -/
def beforeType (c : Code) : List Code :=
  c.items.takeWhile (fun x => !x.isTypeKeyword)

/-- The items of a member statement that come before its first identifier. -/
def beforeName (c : Code) : List Code :=
  c.items.takeWhile (fun x => !x.isIdentifier)

/-- The identifiers a statement holds directly, in order. -/
def identifiers (c : Code) : List String :=
  c.items.filterMap fun
    | Code.token TokenType.identifierToken name => some name
    | _ => none

/-- The comments a statement holds directly, in order. -/
def comments (c : Code) : List String :=
  c.items.filterMap fun
    | Code.comment text => some text
    | _ => none

/-- The contents of the parenthesised groups a statement holds directly, in order. -/
def paramGroups (c : Code) : List (List Code) :=
  c.items.filterMap fun
    | Code.group "params" _ _ _ _ items => some items
    | _ => none

/-- The items a comment contributes: nothing when it is empty, otherwise the
comment followed by a line break. -/
def commentItems (comment : String) : List Code :=
  if comment = "" then [] else [Code.comment comment, Code.lineBreak]

/-- The items a return list contributes: nothing when it is empty, otherwise one
parenthesised group holding it. -/
def retItems (ret : List Code) : List Code :=
  if ret.isEmpty then [] else [Code.paramList ret]

/-- The items that open a declaration: the empty item when there is no
top-level comment, otherwise the comment followed by a line break. -/
def headItems (comment : String) : List Code :=
  if comment = "" then [Code.emptyItem] else [Code.comment comment, Code.lineBreak]

/-! ## The example of the specification -/

/-- The parameter `name string` of the example. -/
def nameString : Code := Code.statement [Code.ident "name", Code.ident "string"]

/-- The return type `string` of the example. -/
def stringType : Code := Code.statement [Code.ident "string"]

/-- The method `Greet(name string) string` of the example, without comment. -/
def greetSignature : FunctionSignature :=
  { Name := "Greet", Params := [nameString], Ret := [stringType], Comment := "" }

/-! ## Auxiliary lemmas -/

/-- The byte length of a string is positive exactly when the string is not empty. -/
theorem utf8ByteSize_pos_iff (s : String) : s.utf8ByteSize > 0 ↔ s ≠ "" := by
  cases s with
  | mk cs =>
    cases cs with
    | nil => simp [String.utf8ByteSize, String.utf8ByteSize.go]
    | cons c cs =>
      have hc := Char.utf8Size_pos c
      constructor
      · intro _ h
        have := congrArg String.data h
        simp at this
      · intro _
        show 0 < String.utf8ByteSize.go cs + c.utf8Size
        omega

/-- The accumulating loop of `Definition` appends one member per method, in order. -/
theorem loop_eq_map (funcs : List FunctionSignature) (acc : List Code) :
    funcs.foldl (fun defs fn => defs ++ [Code.statement (Definition.member fn)]) acc
      = acc ++ funcs.map (fun fn => Code.statement (Definition.member fn)) := by
  induction funcs generalizing acc with
  | nil => simp
  | cons f fs ih => simp [ih]

/-- Closed form of the statement built for one method. -/
theorem member_eq (fn : FunctionSignature) :
    Definition.member fn
      = Code.emptyItem :: (commentItems fn.Comment
          ++ [Code.ident fn.Name, Code.paramList fn.Params] ++ retItems fn.Ret) := by
  unfold Definition.member commentItems retItems
  by_cases hc : fn.Comment = "" <;> cases hr : fn.Ret <;>
    simp [hc, utf8ByteSize_pos_iff, jen.Empty, Statement.Line, Statement.Comment,
      Statement.Id, Statement.Params]

/-- Closed form of the declaration built by `Definition`. -/
theorem Definition_eq (pkg name comment : String) (funcs : List FunctionSignature) :
    Definition (NewInterface pkg name funcs comment)
      = Code.statement (headItems comment ++ [Code.typeKeyword, Code.ident name,
          Code.interfaceGroup (funcs.map fun fn => Code.statement (Definition.member fn))]) := by
  unfold Definition NewInterface headItems
  by_cases hc : comment = "" <;>
    simp [hc, loop_eq_map, utf8ByteSize_pos_iff, jen.Empty, jen.Comment, Statement.Line,
      Statement.TypeKw, Statement.Id, Statement.Interface]

/-- The interface body of the declaration holds the members built from the
methods, in order. -/
theorem interfaceBody_Definition (pkg name comment : String) (funcs : List FunctionSignature) :
    interfaceBody (Definition (NewInterface pkg name funcs comment))
      = funcs.map fun fn => Code.statement (Definition.member fn) := by
  rw [Definition_eq]
  unfold headItems
  by_cases hc : comment = "" <;>
    simp [hc, interfaceBody, Code.items, Code.isInterface, Code.emptyItem, Code.lineBreak,
      Code.typeKeyword, Code.ident, Code.interfaceGroup, List.find?]

/-- The items before the `type` keyword are those of the top-level comment. -/
theorem beforeType_Definition (pkg name comment : String) (funcs : List FunctionSignature) :
    beforeType (Definition (NewInterface pkg name funcs comment)) = headItems comment := by
  rw [Definition_eq]
  unfold headItems
  by_cases hc : comment = "" <;>
    simp [hc, beforeType, Code.items, Code.isTypeKeyword, Code.emptyItem, Code.lineBreak,
      Code.typeKeyword, List.takeWhile]

/-- The member at the index of a method is the statement built for that method. -/
theorem member_at (pkg name comment : String) (funcs : List FunctionSignature) (k : Nat)
    (fn : FunctionSignature) (hk : funcs[k]? = some fn) :
    (interfaceBody (Definition (NewInterface pkg name funcs comment)))[k]?
      = some (Code.statement (Definition.member fn)) := by
  rw [interfaceBody_Definition, List.getElem?_map, hk]
  rfl

/-- The statement built for a method determines the method. -/
theorem member_injective {f g : FunctionSignature}
    (h : Definition.member f = Definition.member g) : f = g := by
  rw [member_eq, member_eq] at h
  obtain ⟨fn, fp, fr, fc⟩ := f
  obtain ⟨gn, gp, gr, gc⟩ := g
  simp only [commentItems, retItems] at h
  by_cases hf : fc = "" <;> by_cases hg : gc = "" <;> cases fr <;> cases gr <;>
    simp_all [Code.emptyItem, Code.lineBreak, Code.ident, Code.paramList]

/-- The head items followed by the `type` keyword determine the top-level
comment and what follows the keyword. -/
theorem headItems_append_inj {c1 c2 : String} {r1 r2 : List Code}
    (h : headItems c1 ++ Code.typeKeyword :: r1 = headItems c2 ++ Code.typeKeyword :: r2) :
    c1 = c2 ∧ r1 = r2 := by
  simp only [headItems] at h
  by_cases h1 : c1 = "" <;> by_cases h2 : c2 = "" <;>
    simp_all [Code.emptyItem, Code.lineBreak, Code.typeKeyword]

/-! ## Properties of `Definition` -/

/-- C1: for every pkg, name, comment and method list, the interface body of
`NewInterface(pkg, name, funcs, comment).Definition()` has exactly `len(funcs)`
members, the k-th member is the statement built from `funcs[k]` (and there is a
k-th member only where there is a k-th method), and the identifiers the members
carry are the method names in the order supplied. -/
theorem Definition_members_in_order (pkg name comment : String)
    (funcs : List FunctionSignature) :
    (interfaceBody (Definition (NewInterface pkg name funcs comment))).length = funcs.length ∧
    (∀ k : Nat, (interfaceBody (Definition (NewInterface pkg name funcs comment)))[k]?
        = (funcs[k]?).map fun fn => Code.statement (Definition.member fn)) ∧
    (interfaceBody (Definition (NewInterface pkg name funcs comment))).map identifiers
        = funcs.map fun fn => [fn.Name] := by
  rw [interfaceBody_Definition]
  refine ⟨by simp, fun k => by simp [List.getElem?_map], ?_⟩
  rw [List.map_map]
  apply List.map_congr_left
  intro fn _
  simp only [Function.comp, member_eq, commentItems, retItems]
  by_cases hc : fn.Comment = "" <;> cases hr : fn.Ret <;>
    simp [hc, identifiers, Code.items, Code.emptyItem, Code.lineBreak, Code.ident,
      Code.paramList, List.filterMap]

/-- C3: for a method whose return list is empty, the member emitted for it is,
after the builder's empty item and the optional comment, the method name
followed by the parameter list only: the member holds exactly one parenthesised
group, the parameter list. -/
theorem member_without_return (pkg name comment : String) (funcs : List FunctionSignature)
    (k : Nat) (fn : FunctionSignature) (hk : funcs[k]? = some fn) (hr : fn.Ret = []) :
    (interfaceBody (Definition (NewInterface pkg name funcs comment)))[k]?
      = some (Code.statement (Code.emptyItem ::
          (commentItems fn.Comment ++ [Code.ident fn.Name, Code.paramList fn.Params]))) ∧
    paramGroups (Code.statement (Definition.member fn)) = [fn.Params] := by
  rw [member_at pkg name comment funcs k fn hk, member_eq]
  unfold commentItems
  by_cases hc : fn.Comment = "" <;>
    simp [hc, hr, retItems, paramGroups, Code.items, Code.emptyItem, Code.lineBreak,
      Code.ident, Code.paramList, List.filterMap]

/-- Witness of C3: the method `Close()` of the descriptor `Closer`. -/
theorem member_without_return_witness :
    (interfaceBody (Definition (NewInterface "io" "Closer"
        [{ Name := "Close", Params := [], Ret := [], Comment := "" }] "")))[0]?
      = some (Code.statement (Code.emptyItem ::
          (commentItems "" ++ [Code.ident "Close", Code.paramList []]))) ∧
    paramGroups (Code.statement
        (Definition.member { Name := "Close", Params := [], Ret := [], Comment := "" }))
      = [[]] :=
  member_without_return "io" "Closer" ""
    [{ Name := "Close", Params := [], Ret := [], Comment := "" }] 0
    { Name := "Close", Params := [], Ret := [], Comment := "" } rfl rfl

/-- C4: for every pkg, name and comment, a descriptor without methods yields
the declaration `type <name> interface` whose interface body holds no member. -/
theorem Definition_no_methods (pkg name comment : String) :
    Definition (NewInterface pkg name [] comment)
      = Code.statement (headItems comment
          ++ [Code.typeKeyword, Code.ident name, Code.interfaceGroup []]) ∧
    interfaceBody (Definition (NewInterface pkg name [] comment)) = [] := by
  refine ⟨?_, ?_⟩
  · rw [Definition_eq]; rfl
  · rw [interfaceBody_Definition]; rfl

/-- C5: for a descriptor whose top-level comment is not empty, the output of
`Definition()` is exactly: that comment, a line break, the `type` keyword, the
interface name and the interface body. The items before the `type` keyword are
the comment and the line break, and the declaration statement holds that one
comment and no other. -/
theorem Definition_comment_first (pkg name comment : String) (funcs : List FunctionSignature)
    (hc : comment ≠ "") :
    Definition (NewInterface pkg name funcs comment)
      = Code.statement [Code.comment comment, Code.lineBreak, Code.typeKeyword, Code.ident name,
          Code.interfaceGroup (funcs.map fun fn => Code.statement (Definition.member fn))] ∧
    beforeType (Definition (NewInterface pkg name funcs comment))
      = [Code.comment comment, Code.lineBreak] ∧
    comments (Definition (NewInterface pkg name funcs comment)) = [comment] := by
  rw [beforeType_Definition, Definition_eq]
  simp [hc, headItems, comments, Code.items, Code.lineBreak, Code.typeKeyword, Code.ident,
    Code.interfaceGroup, List.filterMap]

/-- Witness of C5: the descriptor `Closer` with the comment `Closer closes.`. -/
theorem Definition_comment_first_witness :
    "Closer closes." ≠ "" ∧
    Definition (NewInterface "io" "Closer" [] "Closer closes.")
      = Code.statement [Code.comment "Closer closes.", Code.lineBreak, Code.typeKeyword,
          Code.ident "Closer", Code.interfaceGroup []] :=
  ⟨by decide, (Definition_comment_first "io" "Closer" "Closer closes." [] (by decide)).1⟩

/-- C6: for a method at index k whose comment is not empty, the k-th member is,
after the builder's empty item: that comment, a line break, the method name and
the parameter list (then the return list, if any). The comment belongs to that
member alone: every member holds the comment of its own method and no other,
the items before the `type` keyword are those of the top-level comment, and
replacing the method at index k leaves the items before the `type` keyword and
every other member unchanged. -/
theorem method_comment_placement (pkg name comment : String) (funcs : List FunctionSignature)
    (k : Nat) (fn : FunctionSignature) (hk : funcs[k]? = some fn) (hc : fn.Comment ≠ "") :
    (interfaceBody (Definition (NewInterface pkg name funcs comment)))[k]?
      = some (Code.statement ([Code.emptyItem, Code.comment fn.Comment, Code.lineBreak,
          Code.ident fn.Name, Code.paramList fn.Params] ++ retItems fn.Ret)) ∧
    comments (Code.statement (Definition.member fn)) = [fn.Comment] ∧
    (∀ (j : Nat) (fj : FunctionSignature), funcs[j]? = some fj →
      (interfaceBody (Definition (NewInterface pkg name funcs comment)))[j]?
        = some (Code.statement (Definition.member fj)) ∧
      comments (Code.statement (Definition.member fj))
        = if fj.Comment = "" then [] else [fj.Comment]) ∧
    beforeType (Definition (NewInterface pkg name funcs comment)) = headItems comment ∧
    (∀ fn2 : FunctionSignature,
      beforeType (Definition (NewInterface pkg name (funcs.set k fn2) comment))
        = beforeType (Definition (NewInterface pkg name funcs comment)) ∧
      ∀ j : Nat, j ≠ k →
        (interfaceBody (Definition (NewInterface pkg name (funcs.set k fn2) comment)))[j]?
          = (interfaceBody (Definition (NewInterface pkg name funcs comment)))[j]?) := by
  have hcom : ∀ fj : FunctionSignature, comments (Code.statement (Definition.member fj))
      = if fj.Comment = "" then [] else [fj.Comment] := by
    intro fj
    rw [member_eq]
    unfold commentItems retItems
    by_cases h : fj.Comment = "" <;> cases hr : fj.Ret <;>
      simp [h, comments, Code.items, Code.emptyItem, Code.lineBreak, Code.ident,
        Code.paramList, List.filterMap]
  refine ⟨?_, ?_, ?_, beforeType_Definition pkg name comment funcs, ?_⟩
  · rw [member_at pkg name comment funcs k fn hk, member_eq]
    simp [commentItems, hc]
  · rw [hcom fn]
    simp [hc]
  · intro j fj hj
    exact ⟨member_at pkg name comment funcs j fj hj, hcom fj⟩
  · intro fn2
    refine ⟨by rw [beforeType_Definition, beforeType_Definition], ?_⟩
    intro j hj
    rw [interfaceBody_Definition, interfaceBody_Definition, List.getElem?_map,
      List.getElem?_map, List.getElem?_set_ne (Ne.symm hj)]

/-- Witness of C6: the second of two methods carries the comment `Close closes.`. -/
theorem method_comment_placement_witness :
    (interfaceBody (Definition (NewInterface "io" "ReadCloser"
        [{ Name := "Read", Params := [], Ret := [stringType], Comment := "" },
         { Name := "Close", Params := [], Ret := [], Comment := "Close closes." }]
        "ReadCloser reads.")))[1]?
      = some (Code.statement [Code.emptyItem, Code.comment "Close closes.", Code.lineBreak,
          Code.ident "Close", Code.paramList []]) :=
  (method_comment_placement "io" "ReadCloser" "ReadCloser reads."
    [{ Name := "Read", Params := [], Ret := [stringType], Comment := "" },
     { Name := "Close", Params := [], Ret := [], Comment := "Close closes." }] 1
    { Name := "Close", Params := [], Ret := [], Comment := "Close closes." }
    rfl (by decide)).1

/-- C7: the output of `Definition()` is determined by the name, the method list
and the comment of the descriptor: two descriptors that agree on these three
yield the same output, whatever their qualified references are, and so do the
descriptors that `NewInterface` builds from them under any two pkg arguments. -/
theorem Definition_ignores_qual (i j : Interface) (hn : i.name = j.name)
    (hf : i.functions = j.functions) (hc : i.comment = j.comment) :
    Definition i = Definition j ∧
    ∀ pkg1 pkg2 : String,
      Definition (NewInterface pkg1 i.name i.functions i.comment)
        = Definition (NewInterface pkg2 j.name j.functions j.comment) := by
  refine ⟨?_, ?_⟩
  · simp [Definition, hn, hf, hc]
  · intro pkg1 pkg2
    simp [Definition, NewInterface, hn, hf, hc]

/-- Witness of C7: two descriptors of `Greeter` built under different packages
differ, and yield the same declaration. -/
theorem Definition_ignores_qual_witness :
    (NewInterface "alpha" "Greeter" [greetSignature] "hello").qual
      ≠ (NewInterface "beta" "Greeter" [greetSignature] "hello").qual ∧
    Definition (NewInterface "alpha" "Greeter" [greetSignature] "hello")
      = Definition (NewInterface "beta" "Greeter" [greetSignature] "hello") :=
  ⟨by simp [NewInterface, jen.Qual],
   (Definition_ignores_qual (NewInterface "alpha" "Greeter" [greetSignature] "hello")
      (NewInterface "beta" "Greeter" [greetSignature] "hello") rfl rfl rfl).1⟩

/-- C8: `NewInterface` and `Definition` are total and validate nothing. For
every pkg, name, method list and comment, `NewInterface` returns the descriptor
that stores the qualified reference, the name, the methods and the comment as
given, and `Definition` returns for it the declaration written out here in
full: the head items, the `type` keyword, the name as given, and one member per
method, each made of the builder's empty item, the optional comment, the method
name as given, the parameter list and the optional return list. Nothing is
rejected, replaced or merged: two inputs yield the same declaration only when
their names, comments and method lists are equal. In particular an empty name
with no methods yields `type` followed by the empty identifier and an empty
body, and two methods of the same (possibly empty) name without parameters,
returns and comment yield two equal members with empty parameter lists. -/
theorem NewInterface_Definition_total (pkg name comment : String)
    (funcs : List FunctionSignature) :
    (∃ (d : Interface) (out : Code),
      NewInterface pkg name funcs comment = d ∧ Definition d = out ∧
      d = { qual := jen.Qual pkg name, name := name, functions := funcs, comment := comment } ∧
      out = Code.statement (headItems comment ++ [Code.typeKeyword, Code.ident name,
        Code.interfaceGroup (funcs.map fun fn => Code.statement (Code.emptyItem ::
          (commentItems fn.Comment ++ [Code.ident fn.Name, Code.paramList fn.Params]
            ++ retItems fn.Ret)))])) ∧
    (∀ (pkg2 name2 comment2 : String) (funcs2 : List FunctionSignature),
      Definition (NewInterface pkg name funcs comment)
        = Definition (NewInterface pkg2 name2 funcs2 comment2) →
      name = name2 ∧ comment = comment2 ∧ funcs = funcs2) ∧
    Definition (NewInterface pkg "" [] comment)
      = Code.statement (headItems comment
          ++ [Code.typeKeyword, Code.ident "", Code.interfaceGroup []]) ∧
    (∀ m : String,
      Definition (NewInterface pkg name
          [{ Name := m, Params := [], Ret := [], Comment := "" },
           { Name := m, Params := [], Ret := [], Comment := "" }] comment)
        = Code.statement (headItems comment ++ [Code.typeKeyword, Code.ident name,
            Code.interfaceGroup
              [Code.statement [Code.emptyItem, Code.ident m, Code.paramList []],
               Code.statement [Code.emptyItem, Code.ident m, Code.paramList []]]])) := by
  refine ⟨⟨NewInterface pkg name funcs comment, Definition (NewInterface pkg name funcs comment),
    rfl, rfl, rfl, ?_⟩, ?_, ?_, ?_⟩
  · rw [Definition_eq]
    simp only [member_eq]
  · intro pkg2 name2 comment2 funcs2 h
    rw [Definition_eq, Definition_eq] at h
    have h1 := Code.statement.inj h
    have hhead := headItems_append_inj h1
    obtain ⟨hc, htail⟩ := hhead
    simp only [List.cons.injEq, Code.ident, Code.token.injEq, Code.interfaceGroup,
      Code.group.injEq, true_and, and_true] at htail
    refine ⟨htail.1, hc, ?_⟩
    exact List.map_injective_iff.mpr
      (fun a b hab => member_injective (Code.statement.inj hab)) htail.2
  · rw [Definition_eq]; rfl
  · intro m
    rw [Definition_eq]; rfl

/-- Witness of C8: the declarations of two descriptors that differ only in the
name of their single method differ. -/
theorem NewInterface_Definition_total_witness :
    Definition (NewInterface "io" "Closer"
        [{ Name := "Close", Params := [], Ret := [], Comment := "" }] "")
      ≠ Definition (NewInterface "io" "Closer"
        [{ Name := "", Params := [], Ret := [], Comment := "" }] "") :=
  fun h => by
    have h3 := ((NewInterface_Definition_total "io" "Closer" ""
      [{ Name := "Close", Params := [], Ret := [], Comment := "" }]).2.1
      "io" "Closer" "" [{ Name := "", Params := [], Ret := [], Comment := "" }] h).2.2
    simp at h3

/-- C9: for a method whose return list is not empty, the member emitted for it
is, after the builder's empty item and the optional comment, exactly: the method
name, a parenthesised group holding the parameters in their order, and a second
parenthesised group holding the return list in its order, whatever its length. -/
theorem member_with_return (pkg name comment : String) (funcs : List FunctionSignature)
    (k : Nat) (fn : FunctionSignature) (hk : funcs[k]? = some fn) (hr : fn.Ret ≠ []) :
    (interfaceBody (Definition (NewInterface pkg name funcs comment)))[k]?
      = some (Code.statement (Code.emptyItem :: (commentItems fn.Comment
          ++ [Code.ident fn.Name, Code.paramList fn.Params, Code.paramList fn.Ret]))) ∧
    paramGroups (Code.statement (Definition.member fn)) = [fn.Params, fn.Ret] := by
  rw [member_at pkg name comment funcs k fn hk, member_eq]
  unfold commentItems
  by_cases hc : fn.Comment = "" <;>
    simp [hc, hr, retItems, paramGroups, Code.items, Code.emptyItem, Code.lineBreak,
      Code.ident, Code.paramList, List.filterMap]

/-- Witness of C9: a method with a return list of length one. -/
theorem member_with_return_witness :
    [stringType] ≠ [] ∧
    paramGroups (Code.statement (Definition.member
        { Name := "Read", Params := [nameString], Ret := [stringType], Comment := "Read reads." }))
      = [[nameString], [stringType]] :=
  ⟨by simp,
   (member_with_return "io" "Reader" ""
      [{ Name := "Read", Params := [nameString], Ret := [stringType], Comment := "Read reads." }]
      0 { Name := "Read", Params := [nameString], Ret := [stringType], Comment := "Read reads." }
      rfl (by simp)).2⟩

/-- C10: comments are emitted only when not empty. For a descriptor whose
top-level comment is empty, the declaration is the builder's empty item, the
`type` keyword, the name and the interface body: no comment and no line break
come before the `type` keyword. For a method whose comment is empty, the member
is the builder's empty item, the method name and the parameter list (then the
return list, if any): no comment and no line break come before the method name. -/
theorem empty_comments_emit_nothing (pkg name comment : String)
    (funcs : List FunctionSignature) :
    (Definition (NewInterface pkg name funcs "")
        = Code.statement [Code.emptyItem, Code.typeKeyword, Code.ident name,
            Code.interfaceGroup (funcs.map fun fn => Code.statement (Definition.member fn))] ∧
      beforeType (Definition (NewInterface pkg name funcs "")) = [Code.emptyItem] ∧
      comments (Definition (NewInterface pkg name funcs "")) = []) ∧
    (∀ (k : Nat) (fn : FunctionSignature), funcs[k]? = some fn → fn.Comment = "" →
      (interfaceBody (Definition (NewInterface pkg name funcs comment)))[k]?
        = some (Code.statement ([Code.emptyItem, Code.ident fn.Name, Code.paramList fn.Params]
            ++ retItems fn.Ret)) ∧
      beforeName (Code.statement (Definition.member fn)) = [Code.emptyItem] ∧
      comments (Code.statement (Definition.member fn)) = []) := by
  refine ⟨?_, ?_⟩
  · rw [beforeType_Definition, Definition_eq]
    simp [headItems, comments, Code.items, Code.emptyItem, Code.typeKeyword, Code.ident,
      Code.interfaceGroup, List.filterMap]
  · intro k fn hk hc
    rw [member_at pkg name comment funcs k fn hk, member_eq]
    unfold retItems
    cases hr : fn.Ret <;>
      simp [hc, commentItems, beforeName, comments, Code.items, Code.isIdentifier,
        Code.emptyItem, Code.ident, Code.paramList, List.filterMap, List.takeWhile]

/-- Witness of C10: a descriptor without comment whose method has no comment. -/
theorem empty_comments_emit_nothing_witness :
    (interfaceBody (Definition (NewInterface "example" "Greeter" [greetSignature] "")))[0]?
      = some (Code.statement ([Code.emptyItem, Code.ident "Greet", Code.paramList [nameString]]
          ++ retItems [stringType])) :=
  ((empty_comments_emit_nothing "example" "Greeter" "" [greetSignature]).2 0 greetSignature
    rfl rfl).1

end codegen
